import Mathlib

/-!
Shallow embedding of the volatility-arbitrage backtesting core
(repository `delta-neutral-options-pricing`), together with theorems
settling the specification claims about it.

Conventions of the embedding:
* C++ `double` is modelled as `ℚ` (exact real-valued semantics of the
  arithmetic the code performs; no claim here depends on rounding).
* `core::DateTime` is modelled as `Nat`: only its total order and
  day-addition are used by the embedded code.
* `std::map` members are modelled as association lists with unique keys;
  lookups and point insertions/erasures mirror the C++ map operations.
* Fallible code (C++ `throw`) is modelled with `Except String`.
* External collaborators that the spec places out of scope (instrument
  pricing, the volatility model, signal generation, hedging) enter as
  function-valued parameters, mirroring the C++ abstract interfaces
  (`Instrument::price`, `SignalGenerator::generateSignal`,
  `HedgingStrategy::applyHedge`).
-/

namespace VolArb

/-- `core::MarketData`: one OHLCV snapshot of a symbol at a timestamp
(src/include/core/MarketData.h).  The auxiliary-data map is not consulted
by any embedded code path and is omitted. -/
structure MarketData where
  symbol : String
  timestamp : Nat
  openPx : ℚ
  high : ℚ
  low : ℚ
  close : ℚ
  volume : ℚ
  deriving Repr

/-- `instruments::Instrument` (abstract interface): a symbol plus a price
observable against market data.  Concrete pricing (Black–Scholes etc.) is
out of scope per the spec, so `price` is carried as a function field. -/
structure Instrument where
  symbol : String
  price : MarketData → ℚ

/-- `VolatilityArbitrage::Position` (src/src/strategy/Trade.cpp, second part):
owns one instrument, a signed quantity, entry price and entry date. -/
structure Position where
  instrument : Instrument
  quantity : ℚ
  entryPrice : ℚ
  entryDate : Nat

/-- `Position::getValue`: `quantity_ * instrument_->price(data)`. -/
def Position.getValue (p : Position) (data : MarketData) : ℚ :=
  p.quantity * p.instrument.price data

/-- `Position::getPnL`: `quantity_ * (currentPrice - entryPrice_)`. -/
def Position.getPnL (p : Position) (data : MarketData) : ℚ :=
  p.quantity * (p.instrument.price data - p.entryPrice)

/-- `VolatilityArbitrage::Portfolio` (src/unnamed/part_017): an ordered
position list plus a cash balance. -/
structure Portfolio where
  positions : List Position
  cash : ℚ

/-- `Portfolio::addPosition`: `positions_.push_back(...)`. -/
def Portfolio.addPosition (pf : Portfolio) (p : Position) : Portfolio :=
  { pf with positions := pf.positions ++ [p] }

/-- `Portfolio::getPositionCount`. -/
def Portfolio.getPositionCount (pf : Portfolio) : Nat :=
  pf.positions.length

/-- `Portfolio::removePosition(index)`: throws `std::out_of_range` when
`index >= positions_.size()`, otherwise erases the entry (the C++ throw
happens before any mutation, so the error branch leaves the portfolio
untouched). -/
def Portfolio.removePosition (pf : Portfolio) (index : Nat) : Except String Portfolio :=
  if index ≥ pf.positions.length then
    .error "Position index out of range"
  else
    .ok { pf with positions := pf.positions.eraseIdx index }

/-- Point update of a list entry, used to mirror `positions_[index].setQuantity`. -/
def listModify {α : Type} (l : List α) (i : Nat) (f : α → α) : List α :=
  match l, i with
  | [], _ => []
  | x :: xs, 0 => f x :: xs
  | x :: xs, n + 1 => x :: listModify xs n f

/-- `Portfolio::updatePosition(index, newQuantity)`: bounds check then
`positions_[index].setQuantity(newQuantity)`. -/
def Portfolio.updatePosition (pf : Portfolio) (index : Nat) (newQuantity : ℚ) :
    Except String Portfolio :=
  if index ≥ pf.positions.length then
    .error "Position index out of range"
  else
    .ok { pf with positions := listModify pf.positions index (fun p => { p with quantity := newQuantity }) }

/-- `Portfolio::getPosition(index)`: bounds check then element access. -/
def Portfolio.getPosition (pf : Portfolio) (index : Nat) : Except String Position :=
  if index ≥ pf.positions.length then
    .error "Position index out of range"
  else
    match pf.positions.get? index with
    | some p => .ok p
    | none => .error "Position index out of range"

/-- `Portfolio::addCash`. -/
def Portfolio.addCash (pf : Portfolio) (amount : ℚ) : Portfolio :=
  { pf with cash := pf.cash + amount }

/-- `Portfolio::removeCash`. -/
def Portfolio.removeCash (pf : Portfolio) (amount : ℚ) : Portfolio :=
  { pf with cash := pf.cash - amount }

/-- `Portfolio::getTotalValue`: starts from `cash_` and accumulates
`position.getValue(data)` over the position list. -/
def Portfolio.getTotalValue (pf : Portfolio) (data : MarketData) : ℚ :=
  pf.positions.foldl (fun acc p => acc + p.getValue data) pf.cash

/-- `Signal::Type` (src/include/strategy/Signal.h). -/
inductive SignalType where
  | BUY
  | SELL
  | HOLD
  deriving DecidableEq, Repr

/-- `VolatilityArbitrage::Signal` (src/unnamed/part_016). -/
structure Signal where
  type : SignalType
  strength : ℚ
  instrumentId : String
  timestamp : Nat
  deriving Repr

/-- `Signal::isActionable`: `type != HOLD && strength > 0.0`. -/
def Signal.isActionable (s : Signal) : Bool :=
  decide (s.type ≠ SignalType.HOLD) && decide ((0 : ℚ) < s.strength)

/-- `Trade::Action` (src/include/strategy/Trade.h). -/
inductive TradeAction where
  | BUY
  | SELL
  deriving DecidableEq, Repr

/-- `VolatilityArbitrage::Trade` (src/src/strategy/Trade.cpp). -/
structure Trade where
  instrumentId : String
  action : TradeAction
  quantity : ℚ
  price : ℚ
  timestamp : Nat
  transactionCost : ℚ
  deriving DecidableEq, Repr

/-- `Trade::getValue`: `quantity * price`. -/
def Trade.getValue (t : Trade) : ℚ :=
  t.quantity * t.price

/-- `Trade::getNetValue`: BUY is a cash outflow `-(value + cost)`,
SELL a cash inflow `value - cost`. -/
def Trade.getNetValue (t : Trade) : ℚ :=
  match t.action with
  | .BUY => -(t.getValue + t.transactionCost)
  | .SELL => t.getValue - t.transactionCost

/-- `core::TimeSeries` as used by the backtest core: paired timestamp and
value lists (the name string plays no role in any claim). -/
structure TimeSeries where
  timestamps : List Nat
  values : List ℚ
  deriving DecidableEq, Repr

/-- `VolatilityArbitrage::BacktestResult` (src/src/strategy/BacktestResult.cpp):
owns one equity curve and one trade list.  The lazily-computed metrics cache
is observationally transparent (computed wholesale from curve and trades on
first access), so accessors are modelled as pure functions of these two
fields. -/
structure BacktestResult where
  equityCurve : TimeSeries
  trades : List Trade
  deriving DecidableEq, Repr

/-- Accumulator loop of `BacktestResult::calculateMaxDrawdown`: running
peak, `drawdown = (peak - value)/peak`, keep the maximum. -/
def maxDrawdownLoop : List ℚ → ℚ → ℚ → ℚ
  | [], _, maxDD => maxDD
  | v :: vs, peak, maxDD =>
    let peak' := if v > peak then v else peak
    let dd := (peak' - v) / peak'
    let maxDD' := if dd > maxDD then dd else maxDD
    maxDrawdownLoop vs peak' maxDD'

/-- `BacktestResult::calculateMaxDrawdown`. -/
def calculateMaxDrawdown (r : BacktestResult) : ℚ :=
  match r.equityCurve.values with
  | [] => 0
  | v0 :: rest => maxDrawdownLoop rest v0 0

/-- Accumulator loop of `BacktestResult::calculateDrawdownSeries`: same
running peak, pushing `-drawdown` per value. -/
def drawdownSeriesLoop : List ℚ → ℚ → List ℚ
  | [], _ => []
  | v :: vs, peak =>
    let peak' := if v > peak then v else peak
    let dd := (peak' - v) / peak'
    (-dd) :: drawdownSeriesLoop vs peak'

/-- `BacktestResult::calculateDrawdownSeries`: empty for an empty curve,
otherwise a `0.0` for the first point followed by `-drawdown` per value. -/
def calculateDrawdownSeries (r : BacktestResult) : TimeSeries :=
  match r.equityCurve.values with
  | [] => { timestamps := [], values := [] }
  | v0 :: rest =>
    { timestamps := r.equityCurve.timestamps, values := 0 :: drawdownSeriesLoop rest v0 }

/-- `BacktestResult::getMaxDrawdown`: triggers `calculateMetrics`, which on
a non-empty curve stores `calculateMaxDrawdown()` under `"max_drawdown"`
and on an empty curve stores nothing, after which `getMetric` returns the
stored value resp. the `0.0` default for a missing key.  The cache round
trip is collapsed to its observable value. -/
def BacktestResult.getMaxDrawdown (r : BacktestResult) : ℚ :=
  if r.equityCurve.values.isEmpty then 0 else calculateMaxDrawdown r

/-- `BacktestResult::calculateWinRate`: `0.0` with no trades, otherwise the
count of trades with strictly positive `getNetValue` over the trade count. -/
def calculateWinRate (trades : List Trade) : ℚ :=
  if trades.isEmpty then 0
  else
    let winningTrades := trades.foldl (fun n t => if t.getNetValue > 0 then n + 1 else n) (0 : Nat)
    (winningTrades : ℚ) / (trades.length : ℚ)

/-- `BacktestResult::getWinRate` through the metrics cache, collapsed to
its observable value exactly as for `getMaxDrawdown`. -/
def BacktestResult.getWinRate (r : BacktestResult) : ℚ :=
  if r.equityCurve.values.isEmpty then 0 else calculateWinRate r.trades

/-- `VolatilityArbitrage::BacktestParameters`
(src/include/strategy/BacktestParameters.h): run configuration. -/
structure BacktestParameters where
  startDate : Nat
  endDate : Nat
  initialCapital : ℚ
  symbols : List String
  includeTransactionCosts : Bool
  transactionCostPerTrade : ℚ
  transactionCostPercentage : ℚ
  deriving Repr

/-- `BacktestEngine::validateParameters` (src/unnamed/part_019): the four
checks in source order; the transaction-cost sign check only runs when
`getIncludeTransactionCosts()` is set. -/
def validateParameters (params : BacktestParameters) : Except String Unit :=
  if params.startDate ≥ params.endDate then
    .error "Start date must be before end date"
  else if params.initialCapital ≤ 0 then
    .error "Initial capital must be positive"
  else if params.symbols.isEmpty then
    .error "At least one symbol must be specified"
  else if params.includeTransactionCosts &&
      (decide (params.transactionCostPerTrade < 0) || decide (params.transactionCostPercentage < 0)) then
    .error "Transaction costs cannot be negative"
  else
    .ok ()

/-- `BacktestEngine::validateMarketData`: every requested symbol must have
loaded market data; the first missing one raises. -/
def validateMarketData (marketData : List (String × List MarketData))
    (params : BacktestParameters) : Except String Unit :=
  match params.symbols.find? (fun s => (marketData.lookup s).isNone) with
  | some s => .error ("No market data available for symbol: " ++ s)
  | none => .ok ()

/-- `BacktestEngine::getMarketDataInRange`: keep the observations with
`startDate <= timestamp <= endDate`, preserving order. -/
def getMarketDataInRange (history : List MarketData) (startDate endDate : Nat) :
    List MarketData :=
  history.filter (fun d => decide (d.timestamp ≥ startDate) && decide (d.timestamp ≤ endDate))

/-- Ordered duplicate-free insertion, mirroring `std::set<DateTime>::insert`. -/
def setInsert (x : Nat) : List Nat → List Nat
  | [] => [x]
  | y :: ys =>
    if x < y then x :: y :: ys
    else if x = y then y :: ys
    else y :: setInsert x ys

/-- The engine's `allTimestamps` set: union of the timestamps of all sliced
histories, held sorted and duplicate-free (`std::set` semantics). -/
def allTimestamps (histories : List (List MarketData)) : List Nat :=
  histories.foldl (fun acc h => h.foldl (fun a d => setInsert d.timestamp a) acc) []

/-- `BacktestEngine::calculateTransactionCost`: fixed per-trade cost plus
`trade.getValue()` times the percentage cost. -/
def calculateTransactionCost (trade : Trade) (params : BacktestParameters) : ℚ :=
  params.transactionCostPerTrade + trade.getValue * params.transactionCostPercentage

/-- The C++ `Strategy` abstract interface as consumed by the engine:
a state type with an initializer, `processBar` and `getPortfolio`
(`initStrategy` stands for the C++ member whose name is a Lean keyword). -/
structure StrategyImpl (σ : Type) where
  initStrategy : σ → BacktestParameters → σ
  processBar : σ → MarketData → σ
  getPortfolio : σ → Portfolio

/-- Body of the engine's per-bar, per-symbol loop (src/unnamed/part_019,
lines 113-139): if the symbol has an observation at exactly the current
timestamp, run `processBar` on it and, when the portfolio's position count
changed, append the engine's synthesized `Trade(symbol, BUY, 100.0,
close, t)` with the configured transaction cost when costs are enabled;
otherwise leave the accumulator untouched. -/
def processSymbolsAtBar {σ : Type} (strat : StrategyImpl σ) (params : BacktestParameters)
    (symbolData : List (String × List MarketData)) (t : Nat)
    (st : σ) (trades : List Trade) : σ × List Trade :=
  params.symbols.foldl (fun acc symbol =>
    match ((symbolData.lookup symbol).getD []).find? (fun d => d.timestamp == t) with
    | none => acc
    | some obs =>
      let initialPortfolio := strat.getPortfolio acc.1
      let st' := strat.processBar acc.1 obs
      let finalPortfolio := strat.getPortfolio st'
      if finalPortfolio.getPositionCount ≠ initialPortfolio.getPositionCount then
        let trade : Trade :=
          { instrumentId := symbol, action := .BUY, quantity := 100, price := obs.close
            timestamp := t, transactionCost := 0 }
        let trade :=
          if params.includeTransactionCosts then
            { trade with transactionCost := calculateTransactionCost trade params }
          else trade
        (st', acc.2 ++ [trade])
      else
        (st', acc.2))
    (st, trades)

/-- The engine's per-bar equity sample (src/unnamed/part_019, lines
141-158): when the first requested symbol has sliced data, the appended
value is the placeholder `initialCapital * (1.0 + 0.001 * i)`; otherwise
the initial capital default is kept. -/
def barEquityValue (params : BacktestParameters)
    (symbolData : List (String × List MarketData)) (i : Nat) : ℚ :=
  match params.symbols with
  | [] => params.initialCapital
  | s0 :: _ =>
    if ((symbolData.lookup s0).getD []).isEmpty then params.initialCapital
    else params.initialCapital * (1 + (i : ℚ) / 1000)

/-- `BacktestEngine::buildEquityCurve`: size check then pairing. -/
def buildEquityCurve (portfolioValues : List ℚ) (timestamps : List Nat) :
    Except String TimeSeries :=
  if portfolioValues.length ≠ timestamps.length then
    .error "Portfolio values and timestamps must have the same size"
  else
    .ok { timestamps := timestamps, values := portfolioValues }

/-- Slicing pass of the run: each requested symbol paired with its history
restricted to the date range (`symbolData` in the C++). -/
def slicedSymbolData (marketData : List (String × List MarketData))
    (params : BacktestParameters) : List (String × List MarketData) :=
  params.symbols.map (fun s =>
    (s, getMarketDataInRange ((marketData.lookup s).getD []) params.startDate params.endDate))

/-- One iteration of the run's bar loop: process the symbols with an exact
observation at the bar's timestamp, then append the bar's equity value.
The iteration argument pairs the bar's index with its timestamp. -/
def engineBarStep {σ : Type} (strat : StrategyImpl σ) (params : BacktestParameters)
    (symbolData : List (String × List MarketData))
    (acc : σ × List Trade × List ℚ) (it : Nat × Nat) : σ × List Trade × List ℚ :=
  let pr := processSymbolsAtBar strat params symbolData it.2 acc.1 acc.2.1
  (pr.1, pr.2, acc.2.2 ++ [barEquityValue params symbolData it.1])

/-- `BacktestEngine::run` (src/unnamed/part_019, lines 62-176): validate,
initialize a cloned strategy, slice each requested symbol's history to the
date range, take the ordered union of timestamps as the bar sequence (fatal
if empty), then per bar process the symbols with an exact-timestamp
observation and append the placeholder equity value, finally wrapping curve
and trades into a result. -/
def engineRun {σ : Type} (strat : StrategyImpl σ) (s0 : σ)
    (marketData : List (String × List MarketData)) (params : BacktestParameters) :
    Except String BacktestResult := do
  validateParameters params
  validateMarketData marketData params
  let st := strat.initStrategy s0 params
  let symbolData := slicedSymbolData marketData params
  let timestamps := allTimestamps (symbolData.map Prod.snd)
  if timestamps.isEmpty then
    .error "No market data available for the specified date range"
  else
    let final := timestamps.enum.foldl (engineBarStep strat params symbolData) (st, [], [])
    let curve ← buildEquityCurve final.2.2 timestamps
    .ok { equityCurve := curve, trades := final.2.1 }

/-! ### VolatilityArbitrageStrategy (src/src/models/ModelFactory.cpp, second part) -/

/-- `std::map` point insertion (`map[key] = value`): overwrite the value if
the key is present, otherwise add the entry. -/
def insertAssoc {β : Type} (l : List (String × β)) (k : String) (v : β) :
    List (String × β) :=
  match l with
  | [] => [(k, v)]
  | (k', v') :: rest =>
    if k' = k then (k', v) :: rest else (k', v') :: insertAssoc rest k v

/-- `std::map::erase(key)`. -/
def eraseAssoc {β : Type} (l : List (String × β)) (k : String) :
    List (String × β) :=
  l.filter (fun p => p.1 ≠ k)

/-- The collaborators `VolatilityArbitrageStrategy` owns, all external to
the core per the spec: the option factory (`InstrumentFactory::
createEuropeanCall(underlying, expiry, strike)`), the signal generator with
its volatility model folded in (`signalGenerator_->generateSignal(option,
*volatilityModel_, data)`), the optional hedging policy (`hedgingStrategy_`,
which may be null), and the configured holding period. -/
structure VolArbConfig where
  holdingPeriod : Int
  mkEuropeanCall : String → Nat → ℚ → Instrument
  generateSignal : Instrument → MarketData → Signal
  hedge : Option (Portfolio → MarketData → Portfolio)

/-- Mutable state of `VolatilityArbitrageStrategy`: the portfolio, the
(never-written) `activePositions_` map, and the `daysInPosition_` counters. -/
structure VolArbState where
  portfolio : Portfolio
  activePositions : List (String × Position)
  daysInPosition : List (String × Int)

/-- `VolatilityArbitrageStrategy::initialize`: fresh portfolio holding the
initial capital, both tracking maps cleared. -/
def VolArbState.initStrategy (_ : VolArbState) (params : BacktestParameters) : VolArbState :=
  { portfolio := { positions := [], cash := params.initialCapital }
    activePositions := []
    daysInPosition := [] }

/-- `VolatilityArbitrageStrategy::processSignal` (ModelFactory.cpp lines
118-180): skip when `activePositions_` knows the instrument id; otherwise
size the trade at 10 contracts (negated for SELL), recreate the
at-the-money 30-day call, and if its cost fits in cash add the position,
move the cash, and start the `daysInPosition_` counter at 0. -/
def processSignal (cfg : VolArbConfig) (st : VolArbState) (signal : Signal)
    (data : MarketData) : VolArbState :=
  if (st.activePositions.lookup signal.instrumentId).isSome then st
  else
    let availableCash := st.portfolio.cash
    let quantity : ℚ := 10
    if signal.type = SignalType.BUY ∨ signal.type = SignalType.SELL then
      let expiry := data.timestamp + 30
      let instrument := cfg.mkEuropeanCall data.symbol expiry data.close
      let quantity := if signal.type = SignalType.BUY then quantity else -quantity
      let instrumentPrice := instrument.price data
      let totalCost := |quantity| * instrumentPrice
      if totalCost ≤ availableCash then
        let position : Position :=
          { instrument := instrument, quantity := quantity
            entryPrice := instrumentPrice, entryDate := data.timestamp }
        let pf := st.portfolio.addPosition position
        let pf := if quantity > 0 then pf.removeCash totalCost else pf.addCash totalCost
        { st with
          portfolio := pf
          daysInPosition := insertAssoc st.daysInPosition signal.instrumentId 0 }
      else st
    else st

/-- Closing step of `VolatilityArbitrageStrategy::updatePositions`: value
the position at the observation being processed, settle cash (both
quantity signs reduce to `cash += quantity * price`), erase the position
and its counter.  (The C++ reads the symbol through a reference that
dangles after the erase; the embedding reads it before, which is the only
defined reading.) -/
def closePositionAt (st : VolArbState) (i : Nat) (data : MarketData) : VolArbState :=
  match st.portfolio.positions.get? i with
  | none => st
  | some position =>
    let currentPrice := position.instrument.price data
    let proceeds := position.quantity * currentPrice
    let pf :=
      if position.quantity > 0 then st.portfolio.addCash proceeds
      else st.portfolio.removeCash (-proceeds)
    let pf := { pf with positions := pf.positions.eraseIdx i }
    { st with
      portfolio := pf
      daysInPosition := eraseAssoc st.daysInPosition position.instrument.symbol }

/-- `VolatilityArbitrageStrategy::updatePositions` (ModelFactory.cpp lines
182-223): increment every `daysInPosition_` counter, collect the indices of
positions whose counter reached the holding period, and close them in
reverse index order against the observation being processed. -/
def updatePositions (cfg : VolArbConfig) (st : VolArbState) (data : MarketData) :
    VolArbState :=
  let days := st.daysInPosition.map (fun p => (p.1, p.2 + 1))
  let st := { st with daysInPosition := days }
  let positionsToClose := (List.range st.portfolio.positions.length).filter (fun i =>
    match st.portfolio.positions.get? i with
    | some position =>
      match days.lookup position.instrument.symbol with
      | some d => decide (d ≥ cfg.holdingPeriod)
      | none => false
    | none => false)
  positionsToClose.reverse.foldl (fun acc i => closePositionAt acc i data) st

/-- `VolatilityArbitrageStrategy::applyHedging`: delegate to the hedging
policy when one is attached. -/
def applyHedging (cfg : VolArbConfig) (st : VolArbState) (data : MarketData) :
    VolArbState :=
  match cfg.hedge with
  | some h => { st with portfolio := h st.portfolio data }
  | none => st

/-- `VolatilityArbitrageStrategy::processBar` (ModelFactory.cpp lines
70-95): update/exit positions, build the at-the-money 30-day call on the
observation's symbol, generate a signal for it, process the signal when
actionable, then hedge. -/
def strategyProcessBar (cfg : VolArbConfig) (st : VolArbState) (data : MarketData) :
    VolArbState :=
  let st := updatePositions cfg st data
  let expiry := data.timestamp + 30
  let option := cfg.mkEuropeanCall data.symbol expiry data.close
  let signal := cfg.generateSignal option data
  let st := if signal.isActionable then processSignal cfg st signal data else st
  applyHedging cfg st data

/-- `VolatilityArbitrageStrategy` packaged behind the `Strategy` interface
consumed by the engine. -/
def volArbImpl (cfg : VolArbConfig) : StrategyImpl VolArbState :=
  { initStrategy := VolArbState.initStrategy
    processBar := strategyProcessBar cfg
    getPortfolio := VolArbState.portfolio }

/-! ### Concrete instantiations used to evaluate the code on failing inputs

The option factory and signal generator below are concrete instances of
the external interfaces: the factory names the call after its underlying
(`Option::getSymbol` derives the id from the underlying symbol) and prices
it at the observation's close; the generator emits a BUY of strength 0.9
for the created instrument's id, as `VolatilitySpreadSignal` does when the
forecast sits far enough under the implied volatility. -/

/-- A flat single-symbol observation: symbol `"A"`, close 10. -/
def obsA (t : Nat) : MarketData :=
  { symbol := "A", timestamp := t, openPx := 10, high := 10, low := 10
    close := 10, volume := 0 }

/-- A second symbol's observation: symbol `"B"`, close 20. -/
def obsB (t : Nat) : MarketData :=
  { symbol := "B", timestamp := t, openPx := 20, high := 20, low := 20
    close := 20, volume := 0 }

/-- Concrete option factory: id derived from the underlying, priced at the
observation's close. -/
def mkCallAtClose (s : String) (_expiry : Nat) (_strike : ℚ) : Instrument :=
  { symbol := s ++ "_C", price := fun d => d.close }

/-- Signal generator that emits BUY 0.9 on symbol `"A"` observations and
HOLD otherwise (as `VolatilitySpreadSignal` does without implied vol). -/
def buyOnAGen (instr : Instrument) (d : MarketData) : Signal :=
  if d.symbol = "A" then
    { type := .BUY, strength := 9 / 10, instrumentId := instr.symbol, timestamp := d.timestamp }
  else
    { type := .HOLD, strength := 0, instrumentId := instr.symbol, timestamp := d.timestamp }

/-- Strategy configuration: holding period 1, no hedging policy attached. -/
def cfgBuyA : VolArbConfig :=
  { holdingPeriod := 1, mkEuropeanCall := mkCallAtClose
    generateSignal := buyOnAGen, hedge := none }

/-- Ten daily bars of symbol `"A"`. -/
def histA : List MarketData :=
  [obsA 0, obsA 1, obsA 2, obsA 3, obsA 4, obsA 5, obsA 6, obsA 7, obsA 8, obsA 9]

/-- Run parameters: window \[0,100\], capital 100000, universe `["A"]`,
transaction costs off. -/
def paramsA : BacktestParameters :=
  { startDate := 0, endDate := 100, initialCapital := 100000, symbols := ["A"]
    includeTransactionCosts := false, transactionCostPerTrade := 0
    transactionCostPercentage := 0 }

/-- Loaded market data: the ten bars of `"A"`. -/
def marketDataA : List (String × List MarketData) := [("A", histA)]

/-- A strategy state before `initialize` (the engine always initializes). -/
def blankState : VolArbState :=
  { portfolio := { positions := [], cash := 0 }, activePositions := [], daysInPosition := [] }

/-- The strategy state `initialize` produces for `paramsA`. -/
def freshState : VolArbState := blankState.initStrategy paramsA

/-- A portfolio of 100000 cash and no positions. -/
def constPortfolio : Portfolio := { positions := [], cash := 100000 }

/-- A `Strategy` instance whose portfolio never changes: `processBar` is a
no-op and the sampled portfolio is always `constPortfolio`. -/
def idleStrategy : StrategyImpl Unit :=
  { initStrategy := fun s _ => s
    processBar := fun s _ => s
    getPortfolio := fun _ => constPortfolio }

/-- The ten-bar run of the idle strategy. -/
def idleRun : Except String BacktestResult :=
  engineRun idleStrategy () marketDataA paramsA

/-- The position the open/close strategy below holds during bar 0-1:
10 call contracts bought at 10. -/
def openClosePosition : Position :=
  { instrument := { symbol := "A_C", price := fun d => d.close }
    quantity := 10, entryPrice := 10, entryDate := 0 }

/-- A `Strategy` instance that opens one position of quantity 10 on its
first bar (spending 100 of cash) and closes it on its second bar: its
state counts processed bars and its portfolio holds `openClosePosition`
exactly between the first and second bar. -/
def openCloseStrategy : StrategyImpl Nat :=
  { initStrategy := fun _ _ => 0
    processBar := fun n _ => n + 1
    getPortfolio := fun n =>
      if n = 1 then { positions := [openClosePosition], cash := 99900 }
      else { positions := [], cash := 100000 } }

/-- The ten-bar run of the open/close strategy. -/
def openCloseRun : Except String BacktestResult :=
  engineRun openCloseStrategy 0 marketDataA paramsA

/-! ### Characterization of the bar sequence and the per-bar symbol loop -/

/-- The engine's exact-timestamp lookup for one symbol at one bar: the
first observation of the symbol's sliced history carrying exactly the
bar's timestamp (`std::find_if` in the run loop). -/
def exactObservationAt (symbolData : List (String × List MarketData)) (t : Nat)
    (symbol : String) : Option MarketData :=
  ((symbolData.lookup symbol).getD []).find? (fun d => d.timestamp == t)

/-- One iteration of the engine's per-bar symbol loop, applied to a symbol
paired with its exact-timestamp observation. -/
def processOneObservation {σ : Type} (strat : StrategyImpl σ) (params : BacktestParameters)
    (t : Nat) (acc : σ × List Trade) (so : String × MarketData) : σ × List Trade :=
  let initialPortfolio := strat.getPortfolio acc.1
  let st' := strat.processBar acc.1 so.2
  let finalPortfolio := strat.getPortfolio st'
  if finalPortfolio.getPositionCount ≠ initialPortfolio.getPositionCount then
    let trade : Trade :=
      { instrumentId := so.1, action := .BUY, quantity := 100, price := so.2.close
        timestamp := t, transactionCost := 0 }
    let trade :=
      if params.includeTransactionCosts then
        { trade with transactionCost := calculateTransactionCost trade params }
      else trade
    (st', acc.2 ++ [trade])
  else
    (st', acc.2)

theorem setInsert_mem (a x : Nat) : ∀ l : List Nat, x ∈ setInsert a l ↔ x = a ∨ x ∈ l := by
  intro l
  induction l with
  | nil => simp [setInsert]
  | cons y ys ih =>
    by_cases hlt : a < y
    · simp [setInsert, hlt]
    · by_cases heq : a = y
      · subst heq
        have hset : setInsert a (a :: ys) = a :: ys := by
          simp [setInsert, hlt]
        rw [hset, List.mem_cons]
        tauto
      · simp only [setInsert, if_neg hlt, if_neg heq, List.mem_cons, ih]
        tauto

theorem setInsert_sorted (a : Nat) :
    ∀ l : List Nat, l.Sorted (· < ·) → (setInsert a l).Sorted (· < ·) := by
  intro l
  induction l with
  | nil => intro _; simp [setInsert]
  | cons y ys ih =>
    intro hs
    rw [List.sorted_cons] at hs
    obtain ⟨hy, hys⟩ := hs
    by_cases hlt : a < y
    · simp only [setInsert, if_pos hlt, List.sorted_cons]
      refine ⟨?_, hy, hys⟩
      intro b hb
      rcases List.mem_cons.mp hb with hb | hb
      · exact hb ▸ hlt
      · exact lt_trans hlt (hy b hb)
    · by_cases heq : a = y
      · simp only [setInsert, if_neg hlt, if_pos heq, List.sorted_cons]
        exact ⟨hy, hys⟩
      · have hya : y < a := by omega
        simp only [setInsert, if_neg hlt, if_neg heq, List.sorted_cons]
        refine ⟨?_, ih hys⟩
        intro b hb
        rcases (setInsert_mem a b ys).mp hb with hb | hb
        · exact hb ▸ hya
        · exact hy b hb

theorem insertHistory_sorted (h : List MarketData) :
    ∀ acc : List Nat, acc.Sorted (· < ·) →
      (h.foldl (fun a d => setInsert d.timestamp a) acc).Sorted (· < ·) := by
  induction h with
  | nil => intro acc hacc; exact hacc
  | cons d ds ih =>
    intro acc hacc
    exact ih _ (setInsert_sorted d.timestamp acc hacc)

theorem insertHistory_mem (h : List MarketData) :
    ∀ (acc : List Nat) (x : Nat),
      x ∈ h.foldl (fun a d => setInsert d.timestamp a) acc ↔
        x ∈ acc ∨ ∃ d ∈ h, d.timestamp = x := by
  induction h with
  | nil => intro acc x; simp
  | cons d ds ih =>
    intro acc x
    rw [List.foldl_cons, ih, setInsert_mem]
    simp only [List.mem_cons]
    constructor
    · rintro ((h | h) | ⟨e, he, hx⟩)
      · exact Or.inr ⟨d, Or.inl rfl, h.symm⟩
      · exact Or.inl h
      · exact Or.inr ⟨e, Or.inr he, hx⟩
    · rintro (h | ⟨e, (he | he), hx⟩)
      · exact Or.inl (Or.inr h)
      · exact Or.inl (Or.inl (he ▸ hx.symm))
      · exact Or.inr ⟨e, he, hx⟩

theorem allTimestamps_go_sorted (histories : List (List MarketData)) :
    ∀ acc : List Nat, acc.Sorted (· < ·) →
      (histories.foldl (fun acc h => h.foldl (fun a d => setInsert d.timestamp a) acc)
        acc).Sorted (· < ·) := by
  induction histories with
  | nil => intro acc hacc; exact hacc
  | cons h hs ih =>
    intro acc hacc
    exact ih _ (insertHistory_sorted h acc hacc)

theorem allTimestamps_go_mem (histories : List (List MarketData)) :
    ∀ (acc : List Nat) (x : Nat),
      x ∈ histories.foldl (fun acc h => h.foldl (fun a d => setInsert d.timestamp a) acc) acc ↔
        x ∈ acc ∨ ∃ h ∈ histories, ∃ d ∈ h, d.timestamp = x := by
  induction histories with
  | nil => intro acc x; simp
  | cons h hs ih =>
    intro acc x
    rw [List.foldl_cons, ih, insertHistory_mem]
    simp only [List.mem_cons]
    constructor
    · rintro ((hx | ⟨d, hd, hx⟩) | ⟨g, hg, d, hd, hx⟩)
      · exact Or.inl hx
      · exact Or.inr ⟨h, Or.inl rfl, d, hd, hx⟩
      · exact Or.inr ⟨g, Or.inr hg, d, hd, hx⟩
    · rintro (hx | ⟨g, (hg | hg), d, hd, hx⟩)
      · exact Or.inl (Or.inl hx)
      · exact Or.inl (Or.inr ⟨d, hg ▸ hd, hx⟩)
      · exact Or.inr ⟨g, hg, d, hd, hx⟩

theorem allTimestamps_sorted (histories : List (List MarketData)) :
    (allTimestamps histories).Sorted (· < ·) :=
  allTimestamps_go_sorted histories [] (by simp)

theorem allTimestamps_mem (histories : List (List MarketData)) (x : Nat) :
    x ∈ allTimestamps histories ↔ ∃ h ∈ histories, ∃ d ∈ h, d.timestamp = x := by
  rw [allTimestamps, allTimestamps_go_mem]
  simp

theorem allTimestamps_nodup (histories : List (List MarketData)) :
    (allTimestamps histories).Nodup :=
  (allTimestamps_sorted histories).imp ne_of_lt

theorem allTimestamps_length (histories : List (List MarketData)) :
    (allTimestamps histories).length =
      ((histories.map (fun h => h.map (fun d => d.timestamp))).flatten).toFinset.card := by
  rw [← List.toFinset_card_of_nodup (allTimestamps_nodup histories)]
  congr 1
  ext x
  simp only [List.mem_toFinset, allTimestamps_mem, List.mem_flatten, List.mem_map]
  constructor
  · rintro ⟨h, hh, d, hd, hx⟩
    refine ⟨h.map (fun d => d.timestamp), ⟨h, hh, rfl⟩, ?_⟩
    exact List.mem_map.mpr ⟨d, hd, hx⟩
  · rintro ⟨ts, ⟨h, hh, rfl⟩, hx⟩
    rcases List.mem_map.mp hx with ⟨d, hd, hx⟩
    exact ⟨h, hh, d, hd, hx⟩

theorem symbolLoop_filterMap {σ : Type} (strat : StrategyImpl σ) (params : BacktestParameters)
    (symbolData : List (String × List MarketData)) (t : Nat) :
    ∀ (syms : List String) (acc : σ × List Trade),
      syms.foldl (fun acc symbol =>
        match ((symbolData.lookup symbol).getD []).find? (fun d => d.timestamp == t) with
        | none => acc
        | some obs => processOneObservation strat params t acc (symbol, obs)) acc =
      (syms.filterMap (fun s => (exactObservationAt symbolData t s).map (fun o => (s, o)))).foldl
        (processOneObservation strat params t) acc := by
  intro syms
  induction syms with
  | nil => intro acc; rfl
  | cons s ss ih =>
    intro acc
    rw [List.foldl_cons, List.filterMap_cons]
    have hscrut : ((symbolData.lookup s).getD []).find? (fun d => d.timestamp == t) =
        exactObservationAt symbolData t s := rfl
    rw [hscrut]
    cases h : exactObservationAt symbolData t s with
    | none => simpa using ih acc
    | some obs => simpa using ih (processOneObservation strat params t acc (s, obs))

theorem processSymbolsAtBar_eq {σ : Type} (strat : StrategyImpl σ) (params : BacktestParameters)
    (symbolData : List (String × List MarketData)) (t : Nat) (st : σ) (trades : List Trade) :
    processSymbolsAtBar strat params symbolData t st trades =
      (params.symbols.filterMap
        (fun s => (exactObservationAt symbolData t s).map (fun o => (s, o)))).foldl
        (processOneObservation strat params t) (st, trades) :=
  symbolLoop_filterMap strat params symbolData t params.symbols (st, trades)

theorem engineBarStep_values_length {σ : Type} (strat : StrategyImpl σ)
    (params : BacktestParameters) (symbolData : List (String × List MarketData)) :
    ∀ (l : List (Nat × Nat)) (acc : σ × List Trade × List ℚ),
      ((l.foldl (engineBarStep strat params symbolData) acc).2.2).length =
        acc.2.2.length + l.length := by
  intro l
  induction l with
  | nil => intro acc; simp
  | cons it l ih =>
    intro acc
    rw [List.foldl_cons, ih]
    simp [engineBarStep]
    omega

/-- Any successful run's equity-curve timestamps are exactly the ordered
union of the sliced histories' timestamps. -/
theorem engineRun_timestamps {σ : Type} (strat : StrategyImpl σ) (s0 : σ)
    (marketData : List (String × List MarketData)) (params : BacktestParameters)
    (r : BacktestResult) (h : engineRun strat s0 marketData params = .ok r) :
    r.equityCurve.timestamps = allTimestamps ((slicedSymbolData marketData params).map Prod.snd) := by
  unfold engineRun at h
  cases hv : validateParameters params with
  | error e => rw [hv] at h; simp [Bind.bind, Except.bind] at h
  | ok u =>
    cases u
    rw [hv] at h
    cases hm : validateMarketData marketData params with
    | error e => rw [hm] at h; simp [Bind.bind, Except.bind] at h
    | ok u =>
      cases u
      rw [hm] at h
      simp only [Bind.bind, Except.bind] at h
      by_cases hne :
          (allTimestamps ((slicedSymbolData marketData params).map Prod.snd)).isEmpty
      · rw [if_pos hne] at h
        exact absurd h (by simp)
      · rw [if_neg hne] at h
        rw [buildEquityCurve, if_neg ?hlen] at h
        case hlen =>
          rw [engineBarStep_values_length]
          simp [List.enum_length]
        simp only [Except.bind] at h
        cases h
        rfl

/-! ### Supporting lemmas for the valuation and analytics claims -/

theorem foldl_add_map {α : Type} (f : α → ℚ) :
    ∀ (l : List α) (c : ℚ), l.foldl (fun acc x => acc + f x) c = c + (l.map f).sum := by
  intro l
  induction l with
  | nil => intro c; simp
  | cons x xs ih =>
    intro c
    rw [List.foldl_cons, ih, List.map_cons, List.sum_cons]
    ring

theorem foldl_count_filter {α : Type} (p : α → Prop) [DecidablePred p] :
    ∀ (l : List α) (n : Nat),
      l.foldl (fun n x => if p x then n + 1 else n) n =
        n + (l.filter (fun x => decide (p x))).length := by
  intro l
  induction l with
  | nil => intro n; simp
  | cons x xs ih =>
    intro n
    rw [List.foldl_cons]
    by_cases hp : p x
    · rw [if_pos hp, ih, List.filter_cons_of_pos (by simpa using hp), List.length_cons]
      omega
    · rw [if_neg hp, ih, List.filter_cons_of_neg (by simpa using hp)]

theorem drawdownLoop_spec :
    ∀ (vs : List ℚ) (peak m : ℚ), 0 < peak → (∀ v ∈ vs, 0 < v) → 0 ≤ m →
      (∀ x ∈ drawdownSeriesLoop vs peak, x ≤ 0) ∧
      ((drawdownSeriesLoop vs peak).map (fun x => |x|)).foldl max m = maxDrawdownLoop vs peak m := by
  intro vs
  induction vs with
  | nil => intro peak m _ _ _; exact ⟨by simp [drawdownSeriesLoop], by simp [drawdownSeriesLoop, maxDrawdownLoop]⟩
  | cons v rest ih =>
    intro peak m hpeak hvs hm
    have hv : 0 < v := hvs v (List.mem_cons_self v rest)
    have hrest : ∀ w ∈ rest, 0 < w := fun w hw => hvs w (List.mem_cons_of_mem v hw)
    simp only [drawdownSeriesLoop, maxDrawdownLoop]
    set peak' := if v > peak then v else peak with hpeakdef
    have hpeak' : 0 < peak' := by
      rw [hpeakdef]; split
      · exact hv
      · exact hpeak
    have hvle : v ≤ peak' := by
      rw [hpeakdef]; split
      · exact le_refl v
      · exact le_of_not_lt (by assumption)
    set dd := (peak' - v) / peak' with hdddef
    have hdd : 0 ≤ dd := div_nonneg (by linarith) (le_of_lt hpeak')
    have hmax : 0 ≤ (if dd > m then dd else m) := by
      split
      · exact hdd
      · exact hm
    obtain ⟨ih1, ih2⟩ := ih peak' (if dd > m then dd else m) hpeak' hrest hmax
    constructor
    · intro x hx
      rcases List.mem_cons.mp hx with hx | hx
      · rw [hx]; linarith
      · exact ih1 x hx
    · rw [List.map_cons, List.foldl_cons, abs_neg, abs_of_nonneg hdd]
      rw [show max m dd = if dd > m then dd else m by
        rcases lt_or_ge m dd with hlt | hge
        · rw [max_eq_right (le_of_lt hlt), if_pos hlt]
        · rw [max_eq_left hge, if_neg (not_lt.mpr hge)]]
      exact ih2


/-! ### Claim theorems -/

/-- C3: for every Portfolio state and every Observation, `getTotalValue`
returns the cash balance plus the sum over all positions of quantity times
the instrument's price at the observation; being an identity of the two
functions, it holds in particular at every bar a run samples the portfolio. -/
theorem claim_c3_total_value (pf : Portfolio) (data : MarketData) :
    pf.getTotalValue data =
      pf.cash + (pf.positions.map (fun p => p.quantity * p.instrument.price data)).sum := by
  unfold Portfolio.getTotalValue
  have h := foldl_add_map (fun p => p.getValue data) pf.positions pf.cash
  simpa [Position.getValue] using h

/-- C9: calling `getPosition`, `removePosition` or `updatePosition` with an
index at or beyond `getPositionCount()` produces the out-of-range error; the
C++ throw precedes every mutation, so the position list and cash balance of
the original portfolio are untouched. -/
theorem claim_c9_index_out_of_range (pf : Portfolio) (index : Nat) (newQuantity : ℚ)
    (h : pf.getPositionCount ≤ index) :
    pf.getPosition index = .error "Position index out of range" ∧
    pf.removePosition index = .error "Position index out of range" ∧
    pf.updatePosition index newQuantity = .error "Position index out of range" := by
  have h' : pf.positions.length ≤ index := h
  unfold Portfolio.getPosition Portfolio.removePosition Portfolio.updatePosition
  refine ⟨?_, ?_, ?_⟩ <;> rw [if_pos h']

theorem claim_c9_witness :
    constPortfolio.getPositionCount ≤ 0 ∧
    (constPortfolio.getPosition 0 = .error "Position index out of range" ∧
     constPortfolio.removePosition 0 = .error "Position index out of range" ∧
     constPortfolio.updatePosition 0 1 = .error "Position index out of range") :=
  ⟨by simp [constPortfolio, Portfolio.getPositionCount],
   claim_c9_index_out_of_range constPortfolio 0 1
     (by simp [constPortfolio, Portfolio.getPositionCount])⟩

/-- C10: `getNetValue` is `-(quantity*price + cost)` for BUY trades and
`quantity*price - cost` for SELL trades, and the win rate counts exactly
the trades whose net value is strictly positive. -/
theorem claim_c10_net_value_win_rate :
    (∀ t : Trade,
      (t.action = TradeAction.BUY →
        t.getNetValue = -(t.quantity * t.price + t.transactionCost)) ∧
      (t.action = TradeAction.SELL →
        t.getNetValue = t.quantity * t.price - t.transactionCost)) ∧
    (∀ trades : List Trade, trades ≠ [] →
      calculateWinRate trades =
        ((trades.filter (fun t => decide (0 < t.getNetValue))).length : ℚ) /
          (trades.length : ℚ)) := by
  constructor
  · intro t
    constructor
    · intro h; simp [Trade.getNetValue, h, Trade.getValue]
    · intro h; simp [Trade.getNetValue, h, Trade.getValue]
  · intro trades hne
    have hcount := foldl_count_filter (fun t : Trade => t.getNetValue > 0) trades 0
    simp only [Nat.zero_add] at hcount
    unfold calculateWinRate
    rw [if_neg (by simpa using hne)]
    show ((trades.foldl (fun n t => if t.getNetValue > 0 then n + 1 else n) 0 : Nat) : ℚ) /
        (trades.length : ℚ) = _
    rw [hcount]

/-- A sample losing BUY trade for the C10 witness. -/
def sampleBuyTrade : Trade :=
  { instrumentId := "X", action := .BUY, quantity := 2, price := 5
    timestamp := 0, transactionCost := 1 }

theorem claim_c10_witness :
    sampleBuyTrade.action = TradeAction.BUY ∧
    ([sampleBuyTrade] : List Trade) ≠ [] ∧
    sampleBuyTrade.getNetValue =
      -(sampleBuyTrade.quantity * sampleBuyTrade.price + sampleBuyTrade.transactionCost) ∧
    calculateWinRate [sampleBuyTrade] =
      (([sampleBuyTrade].filter (fun t => decide (0 < t.getNetValue))).length : ℚ) /
        (([sampleBuyTrade] : List Trade).length : ℚ) :=
  ⟨rfl, by simp, (claim_c10_net_value_win_rate.1 sampleBuyTrade).1 rfl,
   claim_c10_net_value_win_rate.2 [sampleBuyTrade] (by simp)⟩

/-- An equity curve with negative values, on which the drawdown claims fail. -/
def negCurveResult : BacktestResult :=
  { equityCurve := { timestamps := [0, 1], values := [-5, -10] }, trades := [] }

/-- C8 counterexample: on the non-empty equity curve `[-5, -10]` the
drawdown series is `[0, 1]` — its second value is strictly positive — and
the maximum absolute drawdown value `1` differs from `getMaxDrawdown() = 0`
(the peak is negative, so `(peak-value)/peak` comes out negative). -/
theorem claim_c8_counterexample :
    ¬ (∀ x ∈ (calculateDrawdownSeries negCurveResult).values, x ≤ 0) ∧
    ((calculateDrawdownSeries negCurveResult).values.map (fun x => |x|)).foldl max 0 ≠
      negCurveResult.getMaxDrawdown := by
  have hser : (calculateDrawdownSeries negCurveResult).values = [0, 1] := by
    norm_num [calculateDrawdownSeries, negCurveResult, drawdownSeriesLoop]
  have hmax : negCurveResult.getMaxDrawdown = 0 := by
    norm_num [BacktestResult.getMaxDrawdown, negCurveResult, calculateMaxDrawdown,
      maxDrawdownLoop]
  constructor
  · intro hall
    have h1 := hall 1 (by rw [hser]; simp)
    norm_num at h1
  · rw [hser, hmax]
    norm_num [max_def]

/-- C8 as amended: on every non-empty equity curve of positive values, the
drawdown series is pointwise nonpositive and the maximum of its absolute
values equals `getMaxDrawdown()`. -/
theorem claim_c8_amended (r : BacktestResult)
    (hne : r.equityCurve.values ≠ [])
    (hpos : ∀ v ∈ r.equityCurve.values, 0 < v) :
    (∀ x ∈ (calculateDrawdownSeries r).values, x ≤ 0) ∧
    ((calculateDrawdownSeries r).values.map (fun x => |x|)).foldl max 0 =
      r.getMaxDrawdown := by
  obtain ⟨v0, rest, hval⟩ : ∃ v0 rest, r.equityCurve.values = v0 :: rest := by
    cases hv : r.equityCurve.values with
    | nil => exact absurd hv hne
    | cons a l => exact ⟨a, l, rfl⟩
  have hv0 : 0 < v0 := hpos v0 (by rw [hval]; exact List.mem_cons_self v0 rest)
  have hrest : ∀ v ∈ rest, 0 < v := fun v hv =>
    hpos v (by rw [hval]; exact List.mem_cons_of_mem v0 hv)
  obtain ⟨h1, h2⟩ := drawdownLoop_spec rest v0 0 hv0 hrest (le_refl 0)
  have hserval : (calculateDrawdownSeries r).values = 0 :: drawdownSeriesLoop rest v0 := by
    simp only [calculateDrawdownSeries, hval]
  constructor
  · intro x hx
    rw [hserval] at hx
    rcases List.mem_cons.mp hx with hx | hx
    · rw [hx]
    · exact h1 x hx
  · rw [hserval, List.map_cons, List.foldl_cons, abs_zero, max_self, h2]
    have hempty : r.equityCurve.values.isEmpty = false := by rw [hval]; rfl
    unfold BacktestResult.getMaxDrawdown
    rw [hempty]
    simp only [Bool.false_eq_true, if_false, calculateMaxDrawdown, hval]

/-- A positive two-point equity curve for the C8 witness. -/
def posCurveResult : BacktestResult :=
  { equityCurve := { timestamps := [0, 1], values := [100, 50] }, trades := [] }

theorem claim_c8_witness :
    (∀ x ∈ (calculateDrawdownSeries posCurveResult).values, x ≤ 0) ∧
    ((calculateDrawdownSeries posCurveResult).values.map (fun x => |x|)).foldl max 0 =
      posCurveResult.getMaxDrawdown :=
  claim_c8_amended posCurveResult (by simp [posCurveResult])
    (by
      intro v hv
      simp only [posCurveResult, List.mem_cons, List.not_mem_nil, or_false] at hv
      rcases hv with h | h <;> rw [h] <;> norm_num)

/-- C6: the bar sequence is the sorted, duplicate-free union of the sliced
histories' timestamps (one entry per distinct timestamp across all sliced
histories, processed in ascending order); every successful run's
equity-curve timestamps are exactly that sequence; and the per-bar loop
equals the fold of the bar step over precisely the symbols having an
observation at exactly that timestamp — all other symbols are skipped,
with no interpolation. -/
theorem claim_c6_bar_sequence :
    (∀ histories : List (List MarketData),
      (allTimestamps histories).Sorted (· < ·) ∧
      (∀ t, t ∈ allTimestamps histories ↔ ∃ h ∈ histories, ∃ d ∈ h, d.timestamp = t) ∧
      (allTimestamps histories).length =
        ((histories.map (fun h => h.map (fun d => d.timestamp))).flatten).toFinset.card) ∧
    (∀ (σ : Type) (strat : StrategyImpl σ) (s0 : σ)
        (marketData : List (String × List MarketData)) (params : BacktestParameters)
        (r : BacktestResult), engineRun strat s0 marketData params = .ok r →
      r.equityCurve.timestamps =
        allTimestamps ((slicedSymbolData marketData params).map Prod.snd)) ∧
    (∀ (σ : Type) (strat : StrategyImpl σ) (params : BacktestParameters)
        (symbolData : List (String × List MarketData)) (t : Nat) (st : σ)
        (trades : List Trade),
      processSymbolsAtBar strat params symbolData t st trades =
        (params.symbols.filterMap
          (fun s => (exactObservationAt symbolData t s).map (fun o => (s, o)))).foldl
          (processOneObservation strat params t) (st, trades)) :=
  ⟨fun histories => ⟨allTimestamps_sorted histories, allTimestamps_mem histories,
      allTimestamps_length histories⟩,
   fun _ strat s0 md params r h => engineRun_timestamps strat s0 md params r h,
   fun _ strat params sd t st trades => processSymbolsAtBar_eq strat params sd t st trades⟩

/-- One-bar loaded history used by witnesses. -/
def oneBarMarketData : List (String × List MarketData) := [("A", [obsA 0])]

theorem claim_c6_witness :
    engineRun idleStrategy () oneBarMarketData paramsA =
      .ok { equityCurve := { timestamps := [0], values := [100000] }, trades := [] } ∧
    ({ equityCurve := { timestamps := [0], values := [100000] }, trades := [] } :
        BacktestResult).equityCurve.timestamps =
      allTimestamps ((slicedSymbolData oneBarMarketData paramsA).map Prod.snd) := by
  have hrun : engineRun idleStrategy () oneBarMarketData paramsA =
      .ok { equityCurve := { timestamps := [0], values := [100000] }, trades := [] } := by
    simp only [engineRun, validateParameters, validateMarketData, slicedSymbolData,
      getMarketDataInRange, allTimestamps, setInsert, engineBarStep, processSymbolsAtBar,
      barEquityValue, buildEquityCurve, idleStrategy, constPortfolio,
      Portfolio.getPositionCount, calculateTransactionCost, oneBarMarketData, paramsA, obsA,
      List.lookup, List.find?, List.enum, List.enumFrom, List.foldl, List.filter, List.map,
      Bind.bind, Except.bind]
    norm_num
  exact ⟨hrun,
    claim_c6_bar_sequence.2.1 Unit idleStrategy () oneBarMarketData paramsA _ hrun⟩

/-- C7 as amended: `validateParameters` accepts exactly chronological
dates, positive capital, a non-empty symbol universe and — only when
transaction costs are enabled — non-negative cost fields; and whenever it
rejects, `run` surfaces exactly that error for every strategy and market
data set, hence before any history is touched or bar processed. -/
theorem claim_c7_amended (params : BacktestParameters) :
    (validateParameters params = .ok () ↔
      (params.startDate < params.endDate ∧ 0 < params.initialCapital ∧
        params.symbols ≠ [] ∧
        (params.includeTransactionCosts = true →
          0 ≤ params.transactionCostPerTrade ∧ 0 ≤ params.transactionCostPercentage))) ∧
    (∀ (σ : Type) (strat : StrategyImpl σ) (s0 : σ)
        (marketData : List (String × List MarketData)) (e : String),
      validateParameters params = .error e →
        engineRun strat s0 marketData params = .error e) := by
  constructor
  · unfold validateParameters
    split_ifs with h1 h2 h3 h4
    · constructor
      · intro h; exact absurd h (by simp)
      · rintro ⟨hlt, -, -, -⟩; omega
    · constructor
      · intro h; exact absurd h (by simp)
      · rintro ⟨-, hpos, -, -⟩; exact absurd hpos (by simpa using h2)
    · constructor
      · intro h; exact absurd h (by simp)
      · rintro ⟨-, -, hne, -⟩; exact absurd (by simpa using h3) hne
    · constructor
      · intro h; exact absurd h (by simp)
      · rintro ⟨-, -, -, hcost⟩
        simp only [Bool.and_eq_true, Bool.or_eq_true, decide_eq_true_eq] at h4
        obtain ⟨hinc, hneg⟩ := h4
        obtain ⟨hp, hq⟩ := hcost hinc
        rcases hneg with hneg | hneg <;> linarith
    · simp only [true_iff]
      refine ⟨by omega, by simpa using not_le.mp (by simpa using h2), by simpa using h3, ?_⟩
      intro hinc
      simp only [Bool.and_eq_true, Bool.or_eq_true, decide_eq_true_eq, not_and, not_or,
        hinc, true_and] at h4
      exact ⟨not_lt.mp h4.1, not_lt.mp h4.2⟩
  · intro σ strat s0 marketData e hv
    unfold engineRun
    rw [hv]
    rfl

/-- Parameters with the empty symbol universe, used by the C7 witness. -/
def emptySymbolsParams : BacktestParameters :=
  { startDate := 0, endDate := 10, initialCapital := 1000, symbols := []
    includeTransactionCosts := false, transactionCostPerTrade := 0
    transactionCostPercentage := 0 }

theorem claim_c7_witness :
    validateParameters emptySymbolsParams = .error "At least one symbol must be specified" ∧
    engineRun idleStrategy () marketDataA emptySymbolsParams =
      .error "At least one symbol must be specified" := by
  have hv : validateParameters emptySymbolsParams =
      .error "At least one symbol must be specified" := by
    norm_num [validateParameters, emptySymbolsParams]
  exact ⟨hv, (claim_c7_amended emptySymbolsParams).2 Unit idleStrategy () marketDataA _ hv⟩

/-- Parameters with a negative per-trade cost but transaction costs
disabled — invalid per the claim, accepted by the code. -/
def negCostParams : BacktestParameters :=
  { startDate := 0, endDate := 10, initialCapital := 1000, symbols := ["X"]
    includeTransactionCosts := false, transactionCostPerTrade := -1
    transactionCostPercentage := 0 }

/-- A single observation of symbol `"X"`. -/
def obsX : MarketData :=
  { symbol := "X", timestamp := 5, openPx := 7, high := 7, low := 7, close := 7, volume := 0 }

/-- C7 counterexample: with transaction costs disabled, a negative
transaction-cost field does not raise — `run` completes normally — whereas
the claim requires a configuration error for every negative cost field. -/
theorem claim_c7_counterexample :
    negCostParams.transactionCostPerTrade < 0 ∧
    engineRun idleStrategy () [("X", [obsX])] negCostParams =
      .ok { equityCurve := { timestamps := [5], values := [1000] }, trades := [] } := by
  constructor
  · norm_num [negCostParams]
  · simp only [engineRun, validateParameters, validateMarketData, slicedSymbolData,
      getMarketDataInRange, allTimestamps, setInsert, engineBarStep, processSymbolsAtBar,
      barEquityValue, buildEquityCurve, idleStrategy, constPortfolio,
      Portfolio.getPositionCount, calculateTransactionCost, negCostParams, obsX,
      List.lookup, List.find?, List.enum, List.enumFrom, List.foldl, List.filter, List.map,
      Bind.bind, Except.bind]
    norm_num

/-- C1 evaluated at the failing input: over the ten-bar run of a strategy
whose sampled portfolio is constantly worth 100000, the engine appends the
placeholder `initialCapital*(1+0.001*i)` — at bar index 1 the appended
value is 100100 while the strategy's portfolio total value at that bar's
observation is 100000. -/
theorem claim_c1_equity_placeholder :
    (idleRun.map (fun r => r.equityCurve.values)) =
      .ok [100000, 100100, 100200, 100300, 100400, 100500, 100600, 100700, 100800, 100900] ∧
    (idleStrategy.getPortfolio ()).getTotalValue (obsA 1) = 100000 ∧
    ((100100 : ℚ) ≠ 100000) := by
  refine ⟨?_, ?_, by norm_num⟩
  · simp only [idleRun, engineRun, validateParameters, validateMarketData, slicedSymbolData,
      getMarketDataInRange, allTimestamps, setInsert, engineBarStep, processSymbolsAtBar,
      barEquityValue, buildEquityCurve, idleStrategy, constPortfolio,
      Portfolio.getPositionCount, calculateTransactionCost, histA, marketDataA, paramsA, obsA,
      List.lookup, List.find?, List.enum, List.enumFrom, List.foldl, List.filter, List.map,
      Bind.bind, Except.bind, Except.map]
    norm_num
  · norm_num [idleStrategy, constPortfolio, Portfolio.getTotalValue]

/-- C2 evaluated at the failing input: the strategy below opens one
position of quantity 10 at bar 0 and closes it at bar 1, yet the returned
trade list holds two engine-synthesized `BUY 100 @ close` entries — the
open's quantity is misreported as 100 and the close is logged as a BUY
instead of a SELL of the actual quantity. -/
theorem claim_c2_dummy_trades :
    (openCloseRun.map (fun r => r.trades)) =
      .ok [{ instrumentId := "A", action := .BUY, quantity := 100, price := 10,
             timestamp := 0, transactionCost := 0 },
           { instrumentId := "A", action := .BUY, quantity := 100, price := 10,
             timestamp := 1, transactionCost := 0 }] ∧
    ((openCloseStrategy.getPortfolio 1).positions.map (fun p => p.quantity)) = [10] ∧
    ((openCloseStrategy.getPortfolio 2).positions.map (fun p => p.quantity)) = [] ∧
    ((100 : ℚ) ≠ 10) := by
  refine ⟨?_, ?_, ?_, by norm_num⟩
  · simp only [openCloseRun, engineRun, validateParameters, validateMarketData,
      slicedSymbolData, getMarketDataInRange, allTimestamps, setInsert, engineBarStep,
      processSymbolsAtBar, barEquityValue, buildEquityCurve, openCloseStrategy,
      openClosePosition, Portfolio.getPositionCount, calculateTransactionCost, histA,
      marketDataA, paramsA, obsA,
      List.lookup, List.find?, List.enum, List.enumFrom, List.foldl, List.filter, List.map,
      Bind.bind, Except.bind, Except.map]
    simp
    norm_num
  · norm_num [openCloseStrategy, openClosePosition]
  · norm_num [openCloseStrategy]

/-- An actionable BUY signal for the option id `"A_C"`. -/
def buySignalAC : Signal :=
  { type := .BUY, strength := 9 / 10, instrumentId := "A_C", timestamp := 0 }

/-- C4 evaluated at the failing input: `activePositions_` is never
populated, so after a first actionable Signal for `"A_C"` has opened a
Position (tracked in `daysInPosition_`), a second identical Signal is not
ignored — it opens a second Position and debits cash again. -/
theorem claim_c4_pyramiding :
    (processSignal cfgBuyA freshState buySignalAC (obsA 0)).daysInPosition.lookup "A_C" =
      some 0 ∧
    (processSignal cfgBuyA freshState buySignalAC (obsA 0)).portfolio.getPositionCount = 1 ∧
    (processSignal cfgBuyA freshState buySignalAC (obsA 0)).portfolio.cash = 99900 ∧
    (processSignal cfgBuyA (processSignal cfgBuyA freshState buySignalAC (obsA 0))
        buySignalAC (obsA 0)).portfolio.getPositionCount = 2 ∧
    (processSignal cfgBuyA (processSignal cfgBuyA freshState buySignalAC (obsA 0))
        buySignalAC (obsA 0)).portfolio.cash = 99800 := by
  refine ⟨?_, ?_, ?_, ?_, ?_⟩ <;>
    · simp only [processSignal, cfgBuyA, freshState, blankState, VolArbState.initStrategy,
        paramsA, buySignalAC, mkCallAtClose, obsA, insertAssoc, Portfolio.addPosition,
        Portfolio.removeCash, Portfolio.addCash, Portfolio.getPositionCount]
      simp
      norm_num

/-- The strategy state after processing symbol A's bar-0 observation:
one open position of 10 contracts on the option `"A_C"`, 100 of cash spent,
days counter started at 0. -/
def stateAfterA : VolArbState :=
  { portfolio :=
      { positions :=
          [{ instrument := { symbol := "A_C", price := fun d => d.close }
             quantity := 10, entryPrice := 10, entryDate := 0 }]
        cash := 99900 }
    activePositions := []
    daysInPosition := [("A_C", 0)] }

/-- The strategy state after symbol B's observation of the same bar: the
position was closed against B's observation (close 20, proceeds 200). -/
def stateAfterB : VolArbState :=
  { portfolio := { positions := [], cash := 100100 }
    activePositions := []
    daysInPosition := [] }

/-- C5 evaluated at the failing input: with holding period 1 and two
symbols observed at the same bar (timestamp 0), the position opened during
symbol A's `processBar` (entry date 0) is closed during symbol B's
`processBar` of the very same bar — the days counter is incremented on
every `processBar` invocation regardless of symbol — and the close is
valued at B's observation (close 20, proceeds 200, cash 100100) instead of
an observation of its own instrument (close 10). -/
theorem claim_c5_same_bar_close :
    strategyProcessBar cfgBuyA freshState (obsA 0) = stateAfterA ∧
    stateAfterA.portfolio.getPositionCount = 1 ∧
    stateAfterA.portfolio.positions.map (fun p => p.entryDate) = [0] ∧
    (obsB 0).timestamp = 0 ∧
    strategyProcessBar cfgBuyA stateAfterA (obsB 0) = stateAfterB ∧
    stateAfterB.portfolio.getPositionCount = 0 ∧
    stateAfterB.portfolio.cash = 100100 ∧
    stateAfterB.daysInPosition = [] := by
  refine ⟨?_, rfl, rfl, rfl, ?_, rfl, rfl, rfl⟩
  · simp only [strategyProcessBar, updatePositions, applyHedging, processSignal,
      closePositionAt, cfgBuyA, freshState, blankState, VolArbState.initStrategy, paramsA,
      buyOnAGen, mkCallAtClose, obsA, insertAssoc, eraseAssoc, Portfolio.addPosition,
      Portfolio.removeCash, Portfolio.addCash, Signal.isActionable, stateAfterA,
      List.map, List.filter, List.foldl, List.reverse, List.lookup]
    simp
    norm_num
  · simp only [strategyProcessBar, updatePositions, applyHedging, processSignal,
      closePositionAt, cfgBuyA, stateAfterA, stateAfterB, paramsA, buyOnAGen, mkCallAtClose,
      obsB, insertAssoc, eraseAssoc, Portfolio.addPosition, Portfolio.removeCash,
      Portfolio.addCash, Signal.isActionable,
      List.map, List.filter, List.foldl, List.reverse, List.lookup,
      show List.range 1 = [0] from rfl]
    simp
    norm_num

end VolArb
